import Mathlib

/-!
Verification development for the acmev2 repository (an ACME v2 client in Go).

Go strings are modelled as `List Char` (`GoStr`).  Each definition below is a
shallow embedding of the corresponding Go function; external effects (HTTP
responses, AWS API outcomes, key generation, library crypto) are passed in
explicitly as environment records or function parameters, and the side effects
the claims talk about (DNS collaborator calls) are collected in explicit lists.
-/

/-- Go strings, modelled as lists of characters. -/
abbrev GoStr := List Char

/-- Models Go strings.HasPrefix: the string starts with the given prefix string. -/
def hasPre (p s : GoStr) : Bool := decide (s.take p.length = p)

/-- Characters trimmed by Go strings.TrimSpace (unicode.IsSpace for the
characters that can occur in the inputs of this program). -/
def isGoSpace (c : Char) : Bool :=
  c = ' ' || c = '\t' || c = '\n' || c = '\u000b' || c = '\u000c' || c = '\r' ||
  c = '\u0085' || c = '\u00A0'

/-- Models Go strings.TrimSpace: drop leading and trailing whitespace. -/
def trimSpace (s : GoStr) : GoStr :=
  (((s.dropWhile isGoSpace).reverse).dropWhile isGoSpace).reverse

/-- The base64url alphabet (RFC 4648 URL-safe alphabet). -/
def b64Alphabet : List Char :=
  "ABCDEFGHIJKLMNOPQRSTUVWXYZabcdefghijklmnopqrstuvwxyz0123456789-_".toList

/-- The base64url digit for a 6-bit value. -/
def b64Digit (n : Nat) : Char := b64Alphabet.getD n 'A'

/-- Models Go encoding/base64 RawURLEncoding.EncodeToString: base64url without
padding, over a byte sequence. -/
def b64url : List Nat → List Char
  | [] => []
  | [a] => [b64Digit (a / 4), b64Digit (a % 4 * 16)]
  | [a, b] => [b64Digit (a / 4), b64Digit (a % 4 * 16 + b / 16), b64Digit (b % 16 * 4)]
  | a :: b :: c :: rest =>
      b64Digit (a / 4) :: b64Digit (a % 4 * 16 + b / 16) ::
      b64Digit (b % 16 * 4 + c / 64) :: b64Digit (c % 64) :: b64url rest

/-- One character of Go fmt %q quoting (the escapes relevant to the strings
this program quotes; other characters are emitted as themselves). -/
def goQuoteChar (c : Char) : List Char :=
  if c = '"' then ['\\', '"']
  else if c = '\\' then ['\\', '\\']
  else if c = '\n' then ['\\', 'n']
  else if c = '\t' then ['\\', 't']
  else if c = '\r' then ['\\', 'r']
  else [c]

/-- Models Go fmt.Sprintf with the %q verb on a string: the string is escaped
and wrapped in double quotes. -/
def goQuote (s : GoStr) : GoStr :=
  '"' :: (s.map goQuoteChar).flatten ++ ['"']

/-- Models Go strings.Split with a one-character separator. -/
def splitChar (sep : Char) : GoStr → List GoStr
  | [] => [[]]
  | c :: cs =>
    match splitChar sep cs with
    | [] => [[]]
    | h :: t => if c = sep then [] :: h :: t else (c :: h) :: t

/-- One loop iteration of prependContacts (cmd/client/main.go): a contact that
does not already start with "mailto:" is trimmed and given the "mailto:" scheme. -/
def contactStep (s : GoStr) : GoStr :=
  if hasPre "mailto:".toList s then s else "mailto:".toList ++ trimSpace s

/-- Models prependContacts (cmd/client/main.go). -/
def prependContacts (c : List GoStr) : List GoStr := c.map contactStep

lemma hasPre_append (p t : GoStr) : hasPre p (p ++ t) = true := by
  simp [hasPre, List.take_left]

lemma contactStep_starts (s : GoStr) : hasPre "mailto:".toList (contactStep s) = true := by
  unfold contactStep
  split
  · assumption
  · exact hasPre_append _ _

lemma contactStep_idem (s : GoStr) : contactStep (contactStep s) = contactStep s := by
  conv_lhs => rw [contactStep]
  rw [if_pos (contactStep_starts s)]

/-- Claim C9: every element of prependContacts(list) begins with "mailto:", and
prependContacts is idempotent: applying it to its own output returns the same
list. -/
theorem prependContacts_mailto_and_idempotent (l : List GoStr) :
    (∀ s ∈ prependContacts l, hasPre "mailto:".toList s = true) ∧
    prependContacts (prependContacts l) = prependContacts l := by
  constructor
  · intro s hs
    simp only [prependContacts, List.mem_map] at hs
    obtain ⟨a, -, rfl⟩ := hs
    exact contactStep_starts a
  · simp only [prependContacts, List.map_map]
    exact List.map_congr_left fun a _ => contactStep_idem a

/-- Witness for C9 at a concrete contact list. -/
theorem prependContacts_mailto_and_idempotent_witness :
    hasPre "mailto:".toList "mailto:a@b.org".toList = true ∧
    prependContacts (prependContacts [" a@b.org".toList, "mailto:c@d.org".toList]) =
      prependContacts [" a@b.org".toList, "mailto:c@d.org".toList] :=
  ⟨(prependContacts_mailto_and_idempotent [" a@b.org".toList]).1
      "mailto:a@b.org".toList (by decide),
   (prependContacts_mailto_and_idempotent _).2⟩

/-! ## Route53 DNS collaborator (route53.go) -/

/-- A hosted zone as returned by ListHostedZonesByName (only the Id is used). -/
structure HostedZone where
  id : GoStr
deriving DecidableEq, Repr

/-- Environment for a Route53 operation: the outcomes of the two AWS calls. -/
structure R53Env where
  listZones : Except GoStr (List HostedZone)
  changeOutcome : Option GoStr
deriving Repr

/-- One change of a Route53 change batch (route53.go, createChangeRecordSetInput). -/
structure R53Change where
  action : GoStr
  name : GoStr
  records : List GoStr
  ttl : Nat
  rtype : GoStr
deriving DecidableEq, Repr

/-- The ChangeResourceRecordSetsInput built by createChangeRecordSetInput. -/
structure ChangeInput where
  hostedZoneId : GoStr
  comment : GoStr
  changes : List R53Change
deriving DecidableEq, Repr

/-- The filter applied to the labels in splitHostname (route53.go): a label is
kept when it is neither "" nor "*". -/
def labelOK (t : GoStr) : Bool := decide (t ≠ [] ∧ t ≠ ['*'])

/-- Models splitHostname (route53.go): split on dots, drop empty and "*"
labels, fail when fewer than two labels remain, otherwise return the
subdomain part and the last two labels joined. -/
def splitHostname (hostname : GoStr) : Except GoStr (GoStr × GoStr) :=
  let s := splitChar '.' hostname
  let h := s.filter labelOK
  if h.length < 2 then
    .error (hostname ++ " is basically a great big TLD".toList)
  else
    .ok (List.intercalate ['.'] (h.take (h.length - 2)),
         List.intercalate ['.'] (h.drop (h.length - 2)))

/-- Models findHostedZoneID (route53.go): split the hostname, query
ListHostedZonesByName, and require exactly one hosted zone in the answer. -/
def findHostedZoneID (env : R53Env) (hostname : GoStr) : Except GoStr GoStr :=
  match splitHostname hostname with
  | .error e => .error e
  | .ok (_, domain) =>
    match env.listZones with
    | .error e => .error e
    | .ok zones =>
      match zones with
      | [z] => .ok z.id
      | _ => .error ("Failed to find HostedZoneID for ".toList ++ domain)

/-- Models createChangeRecordSetInput (route53.go).  The Go code slices
domain[:2] without a bound check; `none` models the panic that raises when
the domain has fewer than two characters.  The record value is
fmt.Sprintf %q of the token. -/
def createChangeRecordSetInput (hostedZoneID domain token action : GoStr) :
    Option ChangeInput :=
  if domain.length < 2 then none
  else
    let d := if domain.take 2 = "*.".toList then domain.drop 2 else domain
    some { hostedZoneId := hostedZoneID,
           comment := "Text record for letsencrypt".toList,
           changes := [ { action := action,
                          name := "_acme-challenge.".toList ++ d,
                          records := [goQuote token],
                          ttl := 20,
                          rtype := "TXT".toList } ] }

/-- Result of a Route53 public operation; `panicked` models a Go runtime
panic (out-of-range slice). -/
inductive R53Result
  | err (e : GoStr)
  | ok
  | panicked
deriving DecidableEq, Repr

/-- Models Route53.AddTextRecord (route53.go): find the hosted zone, build the
UPSERT change batch, submit it.  The built input is returned alongside the
outcome so that theorems can speak about the batch that was submitted. -/
def route53AddTextRecord (env : R53Env) (domain token : GoStr) :
    R53Result × Option ChangeInput :=
  match findHostedZoneID env domain with
  | .error e => (.err e, none)
  | .ok zid =>
    match createChangeRecordSetInput zid domain token "UPSERT".toList with
    | none => (.panicked, none)
    | some input =>
      match env.changeOutcome with
      | some e => (.err e, some input)
      | none => (.ok, some input)

/-- Models Route53.RemoveTextRecord (route53.go): same shape with a DELETE
action. -/
def route53RemoveTextRecord (env : R53Env) (domain token : GoStr) :
    R53Result × Option ChangeInput :=
  match findHostedZoneID env domain with
  | .error e => (.err e, none)
  | .ok zid =>
    match createChangeRecordSetInput zid domain token "DELETE".toList with
    | none => (.panicked, none)
    | some input =>
      match env.changeOutcome with
      | some e => (.err e, some input)
      | none => (.ok, some input)

/-! ## ASM certificate store (secrets.go) -/

/-- Models ASMCertStore.Retrieve (secrets.go): it ignores the domain and
returns the fixed strings "i_am" and "fake" with a nil error. -/
def asmCertStoreRetrieve (_domain : GoStr) : GoStr × GoStr × Option GoStr :=
  ("i_am".toList, "fake".toList, none)

/-- Claim C7 (code_bug evidence): for a domain for which nothing has been
stored, ASMCertStore.Retrieve does not return ("", "", nil); it returns the
stub values ("i_am", "fake", nil). -/
theorem asmCertStoreRetrieve_stub :
    asmCertStoreRetrieve "example.org".toList = ("i_am".toList, "fake".toList, none) ∧
    ¬ asmCertStoreRetrieve "example.org".toList = ([], [], none) := by
  constructor
  · rfl
  · decide

/-! ## Safety of the domain slice in createChangeRecordSetInput -/

lemma splitChar_ne_nil (sep : Char) (l : GoStr) : splitChar sep l ≠ [] := by
  cases l with
  | nil => simp [splitChar]
  | cons c cs =>
    cases h : splitChar sep cs with
    | nil => simp [splitChar, h]
    | cons hd tl =>
      simp only [splitChar, h]
      split <;> simp

lemma splitChar_sum_le (sep : Char) (l : GoStr) :
    ((splitChar sep l).map List.length).sum ≤ l.length := by
  induction l with
  | nil => simp [splitChar]
  | cons c cs ih =>
    cases h : splitChar sep cs with
    | nil => exact absurd h (splitChar_ne_nil sep cs)
    | cons hd tl =>
      rw [h] at ih
      simp only [splitChar, h]
      split
      · simpa using Nat.le_succ_of_le ih
      · simp only [List.map_cons, List.sum_cons, List.length_cons] at ih ⊢
        omega

lemma filter_len_le_sum {p : GoStr → Bool} {s : List GoStr}
    (hp : ∀ t, p t = true → t ≠ []) :
    (s.filter p).length ≤ (s.map List.length).sum := by
  have hone : ∀ i ∈ (s.filter p).map List.length, 1 ≤ i := by
    intro i hi
    obtain ⟨t, ht, rfl⟩ := List.mem_map.1 hi
    exact List.length_pos.2 (hp t (List.of_mem_filter ht))
  calc (s.filter p).length = ((s.filter p).map List.length).length :=
        (List.length_map _ _).symm
    _ ≤ ((s.filter p).map List.length).sum := List.length_le_sum_of_one_le _ hone
    _ ≤ (s.map List.length).sum :=
        List.Sublist.sum_le_sum ((List.filter_sublist _).map _)
          fun a _ => Nat.zero_le a

lemma splitHostname_ok_length {hostname : GoStr} {r : GoStr × GoStr}
    (h : splitHostname hostname = .ok r) : 2 ≤ hostname.length := by
  simp only [splitHostname] at h
  split at h
  · exact absurd h (by simp)
  · rename_i hlen
    have hp : ∀ t : GoStr, labelOK t = true → t ≠ [] := by
      intro t ht
      exact (of_decide_eq_true ht).1
    calc 2 ≤ ((splitChar '.' hostname).filter labelOK).length := by omega
      _ ≤ ((splitChar '.' hostname).map List.length).sum := filter_len_le_sum hp
      _ ≤ hostname.length := splitChar_sum_le '.' hostname

lemma findHostedZoneID_ok_len {env : R53Env} {d z : GoStr}
    (h : findHostedZoneID env d = .ok z) : 2 ≤ d.length := by
  unfold findHostedZoneID at h
  cases hs : splitHostname d with
  | error e => rw [hs] at h; exact absurd h (by simp)
  | ok r => exact splitHostname_ok_length hs

lemma createInput_isSome (zid d tok act : GoStr) (h2 : 2 ≤ d.length) :
    ∃ i, createChangeRecordSetInput zid d tok act = some i := by
  unfold createChangeRecordSetInput
  rw [if_neg (by omega)]
  exact ⟨_, rfl⟩

/-- Claim C10: for every call reaching createChangeRecordSetInput through
Route53.AddTextRecord or Route53.RemoveTextRecord, findHostedZoneID has
already succeeded, which forces the domain to be at least two characters
long, so the unguarded slice domain[:2] is in bounds and neither public
operation panics. -/
theorem route53_operations_never_panic (env : R53Env) (domain token : GoStr) :
    (route53AddTextRecord env domain token).1 ≠ R53Result.panicked ∧
    (route53RemoveTextRecord env domain token).1 ≠ R53Result.panicked := by
  constructor
  · unfold route53AddTextRecord
    cases hf : findHostedZoneID env domain with
    | error e => simp
    | ok zid =>
      obtain ⟨i, hi⟩ := createInput_isSome zid domain token "UPSERT".toList
        (findHostedZoneID_ok_len hf)
      dsimp only
      rw [hi]
      cases env.changeOutcome <;> simp
  · unfold route53RemoveTextRecord
    cases hf : findHostedZoneID env domain with
    | error e => simp
    | ok zid =>
      obtain ⟨i, hi⟩ := createInput_isSome zid domain token "DELETE".toList
        (findHostedZoneID_ok_len hf)
      dsimp only
      rw [hi]
      cases env.changeOutcome <;> simp

/-! ## The change batch built by Route53.AddTextRecord -/

/-- The wildcard stripping applied in createChangeRecordSetInput. -/
def stripWildcard (domain : GoStr) : GoStr :=
  if domain.take 2 = "*.".toList then domain.drop 2 else domain

/-- Claim C8 (amended): whenever the hosted-zone lookup succeeds,
Route53.AddTextRecord submits a change batch containing exactly one UPSERT of
a TXT record named "_acme-challenge.<domain>" (leading "*." stripped) whose
single record value is the token wrapped in double quotes by Go %q
formatting (the quoted form Route53 requires for TXT values). -/
theorem addTextRecord_batch (env : R53Env) (domain token zid : GoStr)
    (h : findHostedZoneID env domain = .ok zid) :
    ∃ input, (route53AddTextRecord env domain token).2 = some input ∧
      input.hostedZoneId = zid ∧
      input.changes = [{ action := "UPSERT".toList,
                         name := "_acme-challenge.".toList ++ stripWildcard domain,
                         records := [goQuote token],
                         ttl := 20,
                         rtype := "TXT".toList }] := by
  have h2 : 2 ≤ domain.length := findHostedZoneID_ok_len h
  unfold route53AddTextRecord
  rw [h]
  dsimp only
  unfold createChangeRecordSetInput
  rw [if_neg (by omega)]
  dsimp only [stripWildcard]
  cases env.changeOutcome <;> exact ⟨_, rfl, rfl, rfl⟩

/-- Concrete Route53 environment: one hosted zone, AWS calls succeed. -/
def envR53 : R53Env := ⟨.ok [⟨"Z1".toList⟩], none⟩

/-- Witness for C8 (amended) at a concrete environment, domain and token. -/
theorem addTextRecord_batch_witness :
    findHostedZoneID envR53 "example.org".toList = .ok "Z1".toList ∧
    ∃ input,
      (route53AddTextRecord envR53 "example.org".toList "tok".toList).2 = some input ∧
      input.hostedZoneId = "Z1".toList ∧
      input.changes = [{ action := "UPSERT".toList,
                         name := "_acme-challenge.".toList ++ stripWildcard "example.org".toList,
                         records := [goQuote "tok".toList],
                         ttl := 20,
                         rtype := "TXT".toList }] :=
  ⟨rfl,
   addTextRecord_batch envR53 "example.org".toList "tok".toList "Z1".toList rfl⟩

/-- Counterexample for C8 as stated: the record value submitted for token
"tok" is the quoted string "\"tok\"", not the token itself. -/
theorem addTextRecord_value_is_quoted_token :
    ((route53AddTextRecord envR53 "example.org".toList "tok".toList).2.map
        fun i => i.changes.map fun ch => ch.records) =
      some [[('"' :: "tok".toList) ++ ['"']]] ∧
    ('"' :: "tok".toList) ++ ['"'] ≠ "tok".toList := by
  constructor
  · decide
  · decide

/-! ## The signed-request transport (Client.makeRequest, cmd/client/main.go) -/

/-- The session state makeRequest reads and writes: the held nonce and the
account key ID (both Go strings; "" means unset). -/
structure ClientSt where
  nonce : GoStr
  kid : GoStr
deriving DecidableEq, Repr

/-- An HTTP response as makeRequest consumes it: the status code, the
Replay-Nonce and Location headers (none when absent), and the outcome of
reading the body.  makeRequest never inspects the status code. -/
structure AcmeResponse where
  status : Nat
  replayNonce : Option GoStr
  location : Option GoStr
  bodyRead : Except GoStr GoStr
deriving Repr

/-- The transport outcome of one request: either http.DefaultClient.Do fails,
or a response arrives. -/
inductive HttpStep
  | doFail (e : GoStr)
  | response (r : AcmeResponse)
deriving Repr

/-- Environment of one makeRequest call: the outcome of JWSEncodeJSON
(modelled from the spec, see `sentNonce` below), of http.NewRequest, and of
the transport. -/
structure ReqEnv where
  jws : Except GoStr GoStr
  newReqErr : Option GoStr
  http : HttpStep
deriving Repr

/-- Models Go http.Header.Get: the header value, or "" when absent. -/
def headerGet (o : Option GoStr) : GoStr := o.getD []

/-- Result of one makeRequest call: the updated session state, the nonce the
request carried if it was handed to the transport, and whether the call
returned without error. -/
structure MRResult where
  client : ClientSt
  sent : Option GoStr
  reqOk : Bool
deriving DecidableEq, Repr

/-- Models Client.makeRequest (cmd/client/main.go, lines 572-609).
Modelled from the spec: JWSEncodeJSON is not under src/; per the spec the
signer places the currently held nonce in the protected header, so a request
handed to the transport carries `c.nonce`.  The Go code updates c.Nonce from
the Replay-Nonce header, and c.KID from Location when c.KID is still empty,
only after the body has been read successfully; on any earlier failure the
state is returned unchanged. -/
def makeRequest (c : ClientSt) (env : ReqEnv) : MRResult :=
  match env.jws with
  | .error _ => ⟨c, none, false⟩
  | .ok _ =>
    match env.newReqErr with
    | some _ => ⟨c, none, false⟩
    | none =>
      match env.http with
      | .doFail _ => ⟨c, some c.nonce, false⟩
      | .response r =>
        match r.bodyRead with
        | .error _ => ⟨c, some c.nonce, false⟩
        | .ok _ =>
          ⟨{ nonce := headerGet r.replayNonce,
             kid := if c.kid = [] then headerGet r.location else c.kid },
           some c.nonce, true⟩

/-- A session: makeRequest is applied to each environment in order; the nonce
carried by each request (when one was sent) is collected. -/
def runSession (c : ClientSt) : List ReqEnv → List (Option GoStr) × ClientSt
  | [] => ([], c)
  | e :: es =>
    let r := makeRequest c e
    let rest := runSession r.client es
    (r.sent :: rest.1, rest.2)

/-- The nonces actually carried by requests in a session. -/
def sentNonces (c : ClientSt) (envs : List ReqEnv) : List GoStr :=
  (runSession c envs).1.reduceOption

/-- An environment in which the call fully succeeds: signing works,
http.NewRequest works, a response arrives and its body is read. -/
def fullSuccess (e : ReqEnv) : Bool :=
  match e.jws, e.newReqErr, e.http with
  | .ok _, none, .response r =>
    match r.bodyRead with
    | .ok _ => true
    | .error _ => false
  | _, _, _ => false

/-- The nonce a response delivers (as http.Header.Get sees it). -/
def respNonceOf (e : ReqEnv) : GoStr :=
  match e.http with
  | .response r => headerGet r.replayNonce
  | .doFail _ => []

lemma makeRequest_fullSuccess {c : ClientSt} {e : ReqEnv} (h : fullSuccess e = true) :
    makeRequest c e = ⟨{ nonce := respNonceOf e,
                         kid := (makeRequest c e).client.kid },
                       some c.nonce, true⟩ := by
  unfold fullSuccess at h
  unfold makeRequest respNonceOf
  rcases e with ⟨jws, newReqErr, http⟩
  rcases jws with e1 | tok <;> rcases newReqErr with e2 | _ <;> simp_all
  rcases http with e3 | r
  · simp_all
  · rcases hb : r.bodyRead with e4 | body <;> simp_all

lemma runSession_success_sent (envs : List ReqEnv) :
    ∀ c : ClientSt, (∀ e ∈ envs, fullSuccess e = true) →
      sentNonces c envs = (c.nonce :: envs.map respNonceOf).dropLast := by
  induction envs with
  | nil => intro c _; simp [sentNonces, runSession]
  | cons e es ih =>
    intro c hall
    have he : fullSuccess e = true := hall e (List.mem_cons_self e es)
    have hes : ∀ x ∈ es, fullSuccess x = true :=
      fun x hx => hall x (List.mem_cons_of_mem e hx)
    have hstep := makeRequest_fullSuccess (c := c) he
    simp only [sentNonces, runSession] at *
    rw [hstep]
    simp only [List.reduceOption_cons_of_some]
    have := ih { nonce := respNonceOf e, kid := (makeRequest c e).client.kid } hes
    simp only [sentNonces] at this
    rw [this]
    simp only [List.map_cons]
    conv_rhs => rw [List.dropLast_cons_of_ne_nil (by simp)]

/-- Claim C1 (amended): provided every makeRequest call in the session fully
succeeds (a response arrives and its body is read) and the Replay-Nonce
values the server returns are fresh — pairwise distinct and distinct from the
initial nonce — every signed request carries a distinct, previously-unused
nonce.  (When a call fails after transmission the held nonce is not replaced
and is reused, see the counterexample.) -/
theorem makeRequest_distinct_nonces (c : ClientSt) (envs : List ReqEnv)
    (hsucc : ∀ e ∈ envs, fullSuccess e = true)
    (hfresh : (c.nonce :: envs.map respNonceOf).Nodup) :
    (sentNonces c envs).Nodup := by
  rw [runSession_success_sent envs c hsucc]
  exact hfresh.sublist (List.dropLast_sublist _)

/-- Two fully successful response environments delivering nonces n2 and n3. -/
def envOkN2 : ReqEnv :=
  ⟨.ok "signed".toList, none,
   .response ⟨200, some "n2".toList, none, .ok "body".toList⟩⟩

/-- Witness for C1 (amended): a concrete two-request session with fresh
server nonces sends two distinct nonces. -/
theorem makeRequest_distinct_nonces_witness :
    (sentNonces ⟨"n1".toList, []⟩
      [envOkN2, ⟨.ok "signed".toList, none,
                 .response ⟨200, some "n3".toList, none, .ok "body".toList⟩⟩]).Nodup :=
  makeRequest_distinct_nonces _ _ (by decide) (by decide)

/-- An environment whose response carries Replay-Nonce "n2" but whose body
read fails. -/
def envBodyFail : ReqEnv :=
  ⟨.ok "signed".toList, none,
   .response ⟨200, some "n2".toList, none, .error "connection reset".toList⟩⟩

/-- Counterexample for C1 as stated: when the first request's response body
read fails, the held nonce is not replaced, and the second request carries
the same nonce "n1" again — the same nonce value is sent in two different
requests. -/
theorem makeRequest_nonce_reused :
    sentNonces ⟨"n1".toList, []⟩ [envBodyFail, envOkN2] =
      ["n1".toList, "n1".toList] ∧
    ¬ (sentNonces ⟨"n1".toList, []⟩ [envBodyFail, envOkN2]).Nodup := by
  constructor
  · rfl
  · decide

/-- Claim C2 (amended): after every makeRequest call in which a response
arrives and its body is read successfully, the held nonce is replaced by the
Replay-Nonce header's value, whatever the HTTP status code — protocol-error
responses included.  (When reading the body fails the nonce is left
unchanged, see the counterexample.) -/
theorem makeRequest_replaces_nonce (c : ClientSt) (tok body : GoStr)
    (r : AcmeResponse) (h : r.bodyRead = .ok body) :
    (makeRequest c ⟨.ok tok, none, .response r⟩).client.nonce =
      headerGet r.replayNonce := by
  unfold makeRequest
  dsimp only
  rw [h]

/-- Witness for C2 (amended) at a concrete error-status response carrying a
Replay-Nonce header. -/
theorem makeRequest_replaces_nonce_witness :
    (makeRequest ⟨"n1".toList, []⟩
        ⟨.ok "signed".toList, none,
         .response ⟨400, some "n9".toList, none, .ok "problem".toList⟩⟩).client.nonce =
      headerGet (some "n9".toList) :=
  makeRequest_replaces_nonce ⟨"n1".toList, []⟩ "signed".toList "problem".toList
    ⟨400, some "n9".toList, none, .ok "problem".toList⟩ rfl

/-- Counterexample for C2 as stated: a response carries Replay-Nonce "n2",
but because reading its body fails the session nonce stays "n1" — the
replacement is not unconditional. -/
theorem makeRequest_nonce_not_replaced :
    envBodyFail.http = .response ⟨200, some "n2".toList, none,
      .error "connection reset".toList⟩ ∧
    (makeRequest ⟨"n1".toList, []⟩ envBodyFail).client.nonce = "n1".toList ∧
    "n1".toList ≠ "n2".toList := by
  exact ⟨rfl, rfl, by decide⟩

/-! ## Key-authorization derivation (Client.acmeAuthString / AcmeAuthHash) -/

/-- The directory of operation URLs fetched from the discovery endpoint. -/
structure Directory where
  newNonce : GoStr
  newAccount : GoStr
  newOrder : GoStr
deriving DecidableEq, Repr

/-- The session fields of the Client struct relevant to the key-authorization
claims, generic in the account-key type `K`. -/
structure ClientK (K : Type) where
  nonce : GoStr
  kid : GoStr
  key : K
  directory : Directory

/-- Models Client.acmeAuthString (cmd/client/main.go): the JWK thumbprint of
the account key (the go-jose library call, a pure function of the key passed
as `thumb`) is base64url-encoded and appended to the token after a dot. -/
def acmeAuthString {K : Type} (thumb : K → Except GoStr (List Nat))
    (c : ClientK K) (token : GoStr) : Except GoStr GoStr :=
  match thumb c.key with
  | .error e => .error e
  | .ok t => .ok (token ++ '.' :: b64url t)

/-- Models Client.AcmeAuthHash (cmd/client/main.go): SHA-256 (the library
hash, passed as the pure function `sha`) of the key-authorization string,
base64url-encoded. -/
def acmeAuthHash {K : Type} (thumb : K → Except GoStr (List Nat))
    (sha : GoStr → List Nat) (c : ClientK K) (token : GoStr) :
    Except GoStr GoStr :=
  match acmeAuthString thumb c token with
  | .error e => .error e
  | .ok s => .ok (b64url (sha s))

/-- Claim C5: AcmeAuthHash returns base64url(SHA-256(token "."
base64url(thumbprint of the account key))), and the derivation is
deterministic and depends only on the account key and the token — two
clients with the same key but different nonce, KID and directory produce the
same value. -/
theorem acmeAuthHash_formula_deterministic {K : Type}
    (thumb : K → Except GoStr (List Nat)) (sha : GoStr → List Nat)
    (c₁ c₂ : ClientK K) (token : GoStr) (hkey : c₁.key = c₂.key) :
    acmeAuthHash thumb sha c₁ token = acmeAuthHash thumb sha c₂ token ∧
    ∀ t, thumb c₁.key = .ok t →
      acmeAuthHash thumb sha c₁ token =
        .ok (b64url (sha (token ++ '.' :: b64url t))) := by
  constructor
  · unfold acmeAuthHash acmeAuthString
    rw [hkey]
  · intro t ht
    unfold acmeAuthHash acmeAuthString
    rw [ht]

/-- Witness for C5: two concrete clients sharing a key but differing in
nonce, KID and directory, with concrete thumbprint and hash functions. -/
theorem acmeAuthHash_formula_deterministic_witness :
    acmeAuthHash (fun k : Nat => .ok [k]) (fun s => [s.length])
        ⟨"n1".toList, [], 7, ⟨[], [], []⟩⟩ "tok".toList =
      acmeAuthHash (fun k : Nat => .ok [k]) (fun s => [s.length])
        ⟨"n2".toList, "kid".toList, 7, ⟨"u".toList, [], []⟩⟩ "tok".toList ∧
    ∀ t, (fun k : Nat => Except.ok (ε := GoStr) [k]) 7 = .ok t →
      acmeAuthHash (fun k : Nat => .ok [k]) (fun s => [s.length])
          ⟨"n1".toList, [], 7, ⟨[], [], []⟩⟩ "tok".toList =
        .ok (b64url ([("tok".toList ++ '.' :: b64url t).length])) :=
  acmeAuthHash_formula_deterministic (fun k : Nat => .ok [k]) (fun s => [s.length])
    ⟨"n1".toList, [], 7, ⟨[], [], []⟩⟩
    ⟨"n2".toList, "kid".toList, 7, ⟨"u".toList, [], []⟩⟩ "tok".toList rfl

/-! ## Session construction (NewClient, cmd/client/main.go lines 469-496) -/

/-- Environment of NewClient: the outcome of fetching the directory, and the
key that ecdsa.GenerateKey would produce if called. -/
structure NewClientEnv (K : Type) where
  directory : Except GoStr Directory
  genKey : K

/-- The options passed to NewClient. -/
structure ClientOpts (K : Type) where
  accountKey : Option K
  contactEmails : List GoStr
  hasLogger : Bool

/-- The Client value NewClient returns (the fields the claim is about). -/
structure BuiltClient (K : Type) where
  key : Option K
  contactEmails : List GoStr
  directory : Directory
  hasLogger : Bool

/-- Models NewClient (cmd/client/main.go, lines 469-496).  The Client value
`c` is built from opts.AccountKey before the nil check; when
opts.AccountKey is nil a fresh key is generated, but it is assigned only to
the local `opts` variable — `c` is never updated, so the returned Client
keeps the nil key. -/
def newClient {K : Type} (env : NewClientEnv K) (opts : ClientOpts K) :
    Except GoStr (BuiltClient K) :=
  let contacts := prependContacts opts.contactEmails
  let c : BuiltClient K :=
    { key := opts.accountKey, contactEmails := contacts,
      directory := ⟨[], [], []⟩, hasLogger := false }
  match env.directory with
  | .error e => .error e
  | .ok dir =>
    let c := { c with directory := dir }
    let opts := if opts.accountKey.isNone
      then { opts with accountKey := some env.genKey } else opts
    let c := if opts.hasLogger then { c with hasLogger := true } else c
    .ok c

/-- Claim C6 (code_bug evidence): when opts.AccountKey is nil and the
directory fetch succeeds, NewClient returns a Client whose Key field is
still nil — the freshly generated key is dropped, contradicting the
function's own doc comment ("a key will be generated ... and be subsequently
available in the Key field of the Client struct"). -/
theorem newClient_drops_generated_key {K : Type} (env : NewClientEnv K)
    (opts : ClientOpts K) (dir : Directory)
    (hnil : opts.accountKey = none) (hdir : env.directory = .ok dir) :
    ∃ c : BuiltClient K, newClient env opts = .ok c ∧ c.key = none := by
  unfold newClient
  rw [hdir]
  dsimp only
  cases h : opts.hasLogger <;> simp_all

/-- Witness for C6 at a concrete environment with a nil account key. -/
theorem newClient_drops_generated_key_witness :
    ∃ c : BuiltClient Nat,
      newClient ⟨.ok ⟨"nn".toList, "na".toList, "no".toList⟩, 42⟩
        ⟨none, ["a@b.org".toList], true⟩ = .ok c ∧ c.key = none :=
  newClient_drops_generated_key ⟨.ok ⟨"nn".toList, "na".toList, "no".toList⟩, 42⟩
    ⟨none, ["a@b.org".toList], true⟩ ⟨"nn".toList, "na".toList, "no".toList⟩ rfl rfl

/-! ## The issuance run (Client.FetchOrRenewCert, cmd/client/main.go 503-570) -/

/-- A challenge offered by an authorization: type, token, URL and status.
The Go zero value is four empty strings. -/
structure Challenge where
  ctype : GoStr
  token : GoStr
  url : GoStr
  status : GoStr
deriving DecidableEq, Repr

/-- The response of FetchChallenges: the offered challenges. -/
structure ChallengeResponse where
  challenges : List Challenge
deriving Repr

/-- The response of CertApply: the authorization URLs of the new order. -/
structure CertApplyResp where
  authorizations : List GoStr
deriving Repr

/-- Environment of one FetchOrRenewCert run.  Modelled from the spec:
GetNonce, newAccount, CertApply, FetchChallenges, ChallengeReady and
PollForStatus are repository functions not under src/, so only their
outcomes appear here, per their contracts in the spec; the DNS collaborator
outcomes come from the DNSModifier interface. -/
structure FetchEnv where
  getNonce : Except GoStr GoStr
  newAccount : Option GoStr
  certApply : Except GoStr CertApplyResp
  fetchChallenges : ChallengeResponse × Option GoStr
  addRecord : Option GoStr
  removeRecord : Option GoStr
  challengeReady : Option GoStr
  pollForStatus : Option GoStr

/-- A call made to the DNS collaborator. -/
inductive DNSCall
  | add (domain token : GoStr)
  | remove (domain token : GoStr)
deriving DecidableEq, Repr

/-- How a FetchOrRenewCert run ends: a normal return (deferred cleanup ran),
a process exit through log.Fatal (deferred cleanup skipped), or a runtime
panic. -/
inductive RunOutcome
  | ret (err : Option GoStr)
  | fatalStop
  | panicked
deriving DecidableEq, Repr

/-- A FetchOrRenewCert run: the DNS collaborator calls, in order, and the
outcome. -/
structure RunResult where
  calls : List DNSCall
  outcome : RunOutcome
deriving DecidableEq, Repr

/-- The challenge-selection loop of FetchOrRenewCert: the first challenge of
type "dns-01", or the Go zero value when none is offered. -/
def firstDNS01 (cs : List Challenge) : Challenge :=
  match cs.find? (fun ch => decide (ch.ctype = "dns-01".toList)) with
  | some ch => ch
  | none => ⟨[], [], [], []⟩

/-- Models Client.FetchOrRenewCert (cmd/client/main.go, lines 503-570).
Notable source behaviors embedded here: the FetchChallenges error is never
checked (the response is used regardless); a missing dns-01 challenge leaves
the zero-value challenge in place; AcmeAuthHash and AddTextRecord failures
hit log.Fatal (process exit, no deferred cleanup); the deferred
RemoveTextRecord runs on every return after a successful AddTextRecord, and
its own failure hits log.Fatal after the call. -/
def fetchOrRenewCert {K : Type} (thumb : K → Except GoStr (List Nat))
    (sha : GoStr → List Nat) (env : FetchEnv) (c : ClientK K)
    (domain : GoStr) : RunResult :=
  if domain = [] then ⟨[], .ret (some "no domain passed in".toList)⟩
  else
    match env.getNonce with
    | .error e => ⟨[], .ret (some e)⟩
    | .ok _ =>
      match env.newAccount with
      | some e => ⟨[], .ret (some e)⟩
      | none =>
        match env.certApply with
        | .error e => ⟨[], .ret (some e)⟩
        | .ok ca =>
          match ca.authorizations with
          | [] => ⟨[], .panicked⟩
          | _ :: _ =>
            let challenge := firstDNS01 env.fetchChallenges.1.challenges
            match acmeAuthHash thumb sha c challenge.token with
            | .error _ => ⟨[], .fatalStop⟩
            | .ok authHash =>
              match env.addRecord with
              | some _ => ⟨[DNSCall.add domain authHash], .fatalStop⟩
              | none =>
                let finish : Option GoStr → RunResult := fun retErr =>
                  match env.removeRecord with
                  | some _ => ⟨[DNSCall.add domain authHash,
                                DNSCall.remove domain authHash], .fatalStop⟩
                  | none => ⟨[DNSCall.add domain authHash,
                              DNSCall.remove domain authHash], .ret retErr⟩
                match env.challengeReady with
                | some e => finish (some e)
                | none =>
                  match env.pollForStatus with
                  | some e => finish (some e)
                  | none => finish none

/-- Trivial thumbprint function for concrete evaluations. -/
def thumbTriv : Unit → Except GoStr (List Nat) := fun _ => .ok []

/-- Trivial hash function for concrete evaluations. -/
def shaTriv : GoStr → List Nat := fun _ => []

/-- A concrete client for concrete evaluations. -/
def clientTriv : ClientK Unit := ⟨"n".toList, [], (), ⟨[], [], []⟩⟩

/-- Claim C4 (amended): in every run of FetchOrRenewCert in which
AddTextRecord is called and succeeds, RemoveTextRecord is subsequently
called exactly once with the same domain and key-authorization hash — the
run's DNS calls are either none at all, or exactly the pair
[AddTextRecord(domain, h), RemoveTextRecord(domain, h)] — including runs in
which ChallengeReady or PollForStatus returns an error. -/
theorem fetchOrRenewCert_cleanup {K : Type} (thumb : K → Except GoStr (List Nat))
    (sha : GoStr → List Nat) (env : FetchEnv) (c : ClientK K) (domain : GoStr)
    (hadd : env.addRecord = none) :
    (fetchOrRenewCert thumb sha env c domain).calls = [] ∨
    ∃ h, (fetchOrRenewCert thumb sha env c domain).calls =
      [DNSCall.add domain h, DNSCall.remove domain h] := by
  unfold fetchOrRenewCert
  dsimp only
  repeat' split
  all_goals first
    | exact Or.inl rfl
    | exact Or.inr ⟨_, rfl⟩
    | simp_all

/-- A FetchOrRenewCert environment in which everything succeeds and a dns-01
challenge is offered. -/
def envHappy : FetchEnv :=
  ⟨.ok "n".toList, none, .ok ⟨["authz".toList]⟩,
   (⟨[⟨"dns-01".toList, "tok".toList, "u".toList, "pending".toList⟩]⟩, none),
   none, none, none, none⟩

/-- Witness for C4 (amended) at a concrete fully-successful run. -/
theorem fetchOrRenewCert_cleanup_witness :
    (fetchOrRenewCert thumbTriv shaTriv envHappy clientTriv "example.org".toList).calls = [] ∨
    ∃ h, (fetchOrRenewCert thumbTriv shaTriv envHappy clientTriv "example.org".toList).calls =
      [DNSCall.add "example.org".toList h, DNSCall.remove "example.org".toList h] :=
  fetchOrRenewCert_cleanup thumbTriv shaTriv envHappy clientTriv "example.org".toList rfl

/-- Same environment but AddTextRecord fails. -/
def envAddFails : FetchEnv :=
  ⟨.ok "n".toList, none, .ok ⟨["authz".toList]⟩,
   (⟨[⟨"dns-01".toList, "tok".toList, "u".toList, "pending".toList⟩]⟩, none),
   some "aws down".toList, none, none, none⟩

/-- Counterexample for C4 as stated: when AddTextRecord is called and returns
an error, FetchOrRenewCert hits log.Fatal (process exit) before the deferred
cleanup is registered — AddTextRecord was called but RemoveTextRecord is
never called. -/
theorem fetchOrRenewCert_add_without_remove :
    fetchOrRenewCert thumbTriv shaTriv envAddFails clientTriv "example.org".toList =
      ⟨[DNSCall.add "example.org".toList (b64url (shaTriv ('.' :: b64url [])))],
        .fatalStop⟩ ∧
    DNSCall.remove "example.org".toList (b64url (shaTriv ('.' :: b64url []))) ∉
      (fetchOrRenewCert thumbTriv shaTriv envAddFails clientTriv "example.org".toList).calls := by
  constructor
  · rfl
  · decide

/-- A FetchOrRenewCert environment offering only an http-01 challenge. -/
def envHttpOnly : FetchEnv :=
  ⟨.ok "n".toList, none, .ok ⟨["authz".toList]⟩,
   (⟨[⟨"http-01".toList, "tok".toList, "u".toList, "pending".toList⟩]⟩, none),
   none, none, none, none⟩

/-- Claim C3 (code_bug evidence): when the fetched challenge response has no
dns-01 challenge, FetchOrRenewCert does not fail — the selection loop leaves
the zero-value challenge, the key authorization is derived from the empty
token, AddTextRecord and RemoveTextRecord are both invoked, and the run
returns nil. -/
theorem fetchOrRenewCert_no_dns01_still_calls_dns :
    firstDNS01 envHttpOnly.fetchChallenges.1.challenges = ⟨[], [], [], []⟩ ∧
    fetchOrRenewCert thumbTriv shaTriv envHttpOnly clientTriv "example.org".toList =
      ⟨[DNSCall.add "example.org".toList (b64url (shaTriv ('.' :: b64url []))),
        DNSCall.remove "example.org".toList (b64url (shaTriv ('.' :: b64url [])))],
        .ret none⟩ := by
  constructor
  · rfl
  · rfl
